import Mathlib

/-!
# Shallow embedding of the `holofoil` rendering core

This file embeds the data model and operations of the `holofoil` crate
(`src/lib.rs`, `src/card.rs`, `src/quaternion.rs`, `src/vector.rs`, and the
showcase example's hot-reload coordinator in `examples/showcase/src/main.rs`)
and proves the specification's claims about them.

Conventions of the embedding:
* `f32` values are modelled as real numbers (`ℝ`); `f32` operations
  (`+`, `*`, `/`, `sin`, `cos`, `sqrt`, `asin`, `atan2`, `clamp`,
  `rem_euclid`) are modelled by their exact real counterparts.
* `u32` values are modelled as `Nat`.
* GPU objects (buffers, textures, bind groups) are modelled symbolically:
  a device allocates fresh integer identifiers, and queue operations are
  recorded as explicit command logs, so that "what was written / drawn /
  bound" is a value the theorems can inspect.
-/

namespace Holofoil

noncomputable section MathModel

/-- Embeds `Vector` from `src/vector.rs` (also duplicated in `src/lib.rs`):
a 3-component `f32` vector, components modelled as reals. -/
@[ext]
structure Vector where
  x : ℝ
  y : ℝ
  z : ℝ

/-- Embeds `Vector::X` from `src/vector.rs`. -/
def Vector.X : Vector := ⟨1, 0, 0⟩

/-- Embeds `Vector::Y` from `src/vector.rs`. -/
def Vector.Y : Vector := ⟨0, 1, 0⟩

/-- Embeds `Vector::Z` from `src/vector.rs`. -/
def Vector.Z : Vector := ⟨0, 0, 1⟩

/-- Embeds `Vector::cross` from `src/vector.rs`. -/
def Vector.cross (v rhs : Vector) : Vector :=
  ⟨v.y * rhs.z - v.z * rhs.y, v.z * rhs.x - v.x * rhs.z, v.x * rhs.y - v.y * rhs.x⟩

/-- Embeds `Vector::dot` from `src/vector.rs`. -/
def Vector.dot (v rhs : Vector) : ℝ :=
  v.x * rhs.x + v.y * rhs.y + v.z * rhs.z

/-- Embeds `impl Add for Vector` from `src/vector.rs`. -/
instance : Add Vector :=
  ⟨fun v rhs => ⟨v.x + rhs.x, v.y + rhs.y, v.z + rhs.z⟩⟩

/-- Embeds `impl Mul<f32> for Vector` from `src/vector.rs`. -/
instance : HMul Vector ℝ Vector :=
  ⟨fun v rhs => ⟨v.x * rhs, v.y * rhs, v.z * rhs⟩⟩

/-- Embeds `impl Div<f32> for Vector` from `src/vector.rs`. -/
instance : HDiv Vector ℝ Vector :=
  ⟨fun v rhs => ⟨v.x / rhs, v.y / rhs, v.z / rhs⟩⟩

theorem Vector.add_def (v rhs : Vector) :
    v + rhs = ⟨v.x + rhs.x, v.y + rhs.y, v.z + rhs.z⟩ := rfl

theorem Vector.mul_def (v : Vector) (rhs : ℝ) :
    v * rhs = ⟨v.x * rhs, v.y * rhs, v.z * rhs⟩ := rfl

theorem Vector.div_def (v : Vector) (rhs : ℝ) :
    v / rhs = ⟨v.x / rhs, v.y / rhs, v.z / rhs⟩ := rfl

/-- Embeds `Quaternion` from `src/quaternion.rs` (also duplicated in
`src/lib.rs`): rotation `w + a·(i,j,k)`. -/
@[ext]
structure Quaternion where
  a : Vector
  w : ℝ

/-- Embeds `f32::clamp(self, lo, hi)`: the value restricted to `[lo, hi]`. -/
def clamp (x lo hi : ℝ) : ℝ := min (max x lo) hi

/-- Embeds `f32::atan2(self = y, other = x)`: the principal argument of the point
`(x, y)`, in `(-π, π]`, modelled by `Complex.arg`. -/
def atan2 (y x : ℝ) : ℝ := Complex.arg ⟨x, y⟩

/-- Embeds `f32::rem_euclid(self = x, rhs = m)` for `m > 0`: the least non-negative
residue `x - m * ⌊x / m⌋`. -/
def remEuclid (x m : ℝ) : ℝ := x - m * ⌊x / m⌋

/-- Embeds `Quaternion::from_radians` from `src/quaternion.rs`: builds the rotation
about `a` by `angle` radians, using the half-angle, negated-angle convention
`angle' = -angle / 2`. -/
def Quaternion.from_radians (a : Vector) (angle : ℝ) : Quaternion :=
  let angle' := -angle / 2
  let sin := Real.sin angle'
  let cos := Real.cos angle'
  ⟨a * sin, cos⟩

/-- Embeds `Quaternion::normalize` from `src/quaternion.rs`: divides both parts by
`sqrt(|a|² + w²)`. -/
def Quaternion.normalize (q : Quaternion) : Quaternion :=
  let d := Real.sqrt (q.a.dot q.a + q.w * q.w)
  ⟨q.a / d, q.w / d⟩

/-- The `normalize` closure inside `Quaternion::to_euler`
(`src/quaternion.rs` lines 38–44): the custom angle fold
`if angle < 0 { -angle } else { (2π - angle).rem_euclid(2π) }`. -/
def foldAngle (angle : ℝ) : ℝ :=
  if angle < 0 then -angle
  else remEuclid (2 * Real.pi - angle) (2 * Real.pi)

/-- Embeds `Quaternion::to_euler` from `src/quaternion.rs`: pitch/yaw/roll
decomposition, each component passed through `foldAngle`. -/
def Quaternion.to_euler (q : Quaternion) : Vector :=
  let pitch := Real.arcsin (clamp (2 * (q.w * q.a.x - q.a.y * q.a.z)) (-1) 1)
  let yaw := atan2 (2 * (q.w * q.a.y + q.a.z * q.a.x))
    (1 - 2 * (q.a.x * q.a.x + q.a.y * q.a.y))
  let roll := atan2 (2 * (q.w * q.a.z + q.a.x * q.a.y))
    (1 - 2 * (q.a.x * q.a.x + q.a.z * q.a.z))
  ⟨foldAngle pitch, foldAngle yaw, foldAngle roll⟩

/-- Embeds `impl Default for Quaternion` from `src/quaternion.rs`. -/
instance : Inhabited Quaternion := ⟨⟨⟨0, 0, 0⟩, 1⟩⟩

/-- Embeds `impl Mul for Quaternion` from `src/quaternion.rs`: the Hamilton
product. -/
instance : Mul Quaternion :=
  ⟨fun q rhs =>
    ⟨q.a * rhs.w + rhs.a * q.w + q.a.cross rhs.a, q.w * rhs.w - q.a.dot rhs.a⟩⟩

theorem Quaternion.mul_eq (q rhs : Quaternion) :
    q * rhs =
      ⟨q.a * rhs.w + rhs.a * q.w + q.a.cross rhs.a,
        q.w * rhs.w - q.a.dot rhs.a⟩ := rfl

end MathModel

section MathLemmas

/-- Taking `rem_euclid` with a positive modulus leaves a value already in
`[0, m)` unchanged. -/
theorem remEuclid_eq_self {x m : ℝ} (hm : 0 < m) (h0 : 0 ≤ x) (h1 : x < m) :
    remEuclid x m = x := by
  unfold remEuclid
  have hfloor : ⌊x / m⌋ = 0 := by
    rw [Int.floor_eq_zero_iff]
    constructor
    · positivity
    · rw [div_lt_one hm]; exact h1
  rw [hfloor]
  simp

/-- Taking `rem_euclid` of the modulus by itself gives zero. -/
theorem remEuclid_self {m : ℝ} (hm : 0 < m) : remEuclid m m = 0 := by
  unfold remEuclid
  rw [div_self (ne_of_gt hm)]
  simp

/-- Taking `rem_euclid` with a positive modulus lands in `[0, m)`. -/
theorem remEuclid_mem {x m : ℝ} (hm : 0 < m) :
    0 ≤ remEuclid x m ∧ remEuclid x m < m := by
  have h : remEuclid x m = m * Int.fract (x / m) := by
    unfold remEuclid Int.fract
    have hm' : m ≠ 0 := ne_of_gt hm
    rw [mul_sub, mul_div_cancel₀ x hm']
  constructor
  · rw [h]; exact mul_nonneg hm.le (Int.fract_nonneg _)
  · rw [h]
    calc m * Int.fract (x / m) < m * 1 :=
          (mul_lt_mul_left hm).mpr (Int.fract_lt_one _)
      _ = m := mul_one m

/-- Any angle strictly greater than `-2π` is folded into `[0, 2π)`. -/
theorem foldAngle_mem {angle : ℝ} (h : -(2 * Real.pi) < angle) :
    0 ≤ foldAngle angle ∧ foldAngle angle < 2 * Real.pi := by
  have hpi : 0 < 2 * Real.pi := by positivity
  unfold foldAngle
  by_cases hneg : angle < 0
  · rw [if_pos hneg]
    constructor
    · linarith
    · linarith
  · rw [if_neg hneg]
    exact remEuclid_mem hpi

end MathLemmas

section GpuModel

/-- Decoded pixel bytes (`bytes::Bytes`). Nothing in the core reads the
contents, so a buffer is modelled by an abstract token. -/
abbrev Bytes : Type := Nat

/-- The two `wgpu::TextureFormat`s used by the core
(`Rgba8UnormSrgb` for layers, `R8Unorm` for masks). -/
inductive TextureFormat where
  | rgba8UnormSrgb
  | r8Unorm
deriving DecidableEq, Repr

/-- A GPU texture, identified by the id the device allocated for it,
together with the descriptor fields `upload` passes
(`src/lib.rs` `Layer::upload` / `Mask::upload`). -/
structure Texture where
  id : Nat
  width : Nat
  height : Nat
  format : TextureFormat
deriving DecidableEq, Repr

/-- A texture view (`Texture::create_view` with the default descriptor):
a reference to its source texture. -/
structure TextureView where
  texture : Nat
deriving DecidableEq, Repr

/-- Embeds `wgpu::Texture::create_view(&TextureViewDescriptor::default())`. -/
def Texture.create_view (t : Texture) : TextureView := ⟨t.id⟩

/-- A GPU buffer: its allocated id and its size in bytes
(`wgpu::Device::create_buffer`). -/
structure Buffer where
  id : Nat
  size : Nat
deriving DecidableEq, Repr

/-- The device's allocation state: resources receive consecutive fresh
ids. -/
structure Gpu where
  nextId : Nat
deriving DecidableEq, Repr

/-- Allocate a fresh resource id. -/
def Gpu.fresh (g : Gpu) : Nat × Gpu := (g.nextId, ⟨g.nextId + 1⟩)

/-- Embeds `device.create_buffer` with the given byte size. -/
def Gpu.create_buffer (g : Gpu) (size : Nat) : Buffer × Gpu :=
  let (i, g') := g.fresh
  (⟨i, size⟩, g')

/-- Embeds `Layer` from `src/lib.rs`: square RGBA8 pixel data. -/
structure Layer where
  rgba : Bytes
  size : Nat
deriving DecidableEq, Repr

/-- Embeds `Layer::upload` from `src/lib.rs`: creates a `size × size` texture with
format `Rgba8UnormSrgb` holding the layer's pixels. -/
def Layer.upload (l : Layer) (g : Gpu) : Texture × Gpu :=
  let (i, g') := g.fresh
  (⟨i, l.size, l.size, .rgba8UnormSrgb⟩, g')

/-- Embeds `Mask` from `src/lib.rs`: square single-channel pixel data. -/
structure Mask where
  pixels : Bytes
  size : Nat
deriving DecidableEq, Repr

/-- Embeds `Mask::upload` from `src/lib.rs`: creates a `size × size` texture with
format `R8Unorm` holding the mask's pixels. -/
def Mask.upload (m : Mask) (g : Gpu) : Texture × Gpu :=
  let (i, g') := g.fresh
  (⟨i, m.size, m.size, .r8Unorm⟩, g')

/-- Embeds `Structure` from `src/lib.rs`: the complete description of a
renderable card. In `src/lib.rs` the foil and etching layers are `Layer`
values as well (`src/card.rs` types them as `Mask`); both are square pixel
buffers and the claims only depend on which texture's view ends up bound,
so the mask type is used here. -/
structure Structure where
  base : Layer
  foil : Option Mask
  etching : Option Mask
  width : Nat
deriving DecidableEq, Repr

/-- A resource bound in a bind group entry. -/
inductive BindingResource where
  | sampler (id : Nat)
  | textureView (view : TextureView)
deriving DecidableEq, Repr

/-- One `wgpu::BindGroupEntry`. -/
structure BindGroupEntry where
  binding : Nat
  resource : BindingResource
deriving DecidableEq, Repr

/-- A `wgpu::BindGroup`: the layout it was created against and its
entries. -/
structure BindGroup where
  layout : Nat
  entries : List BindGroupEntry
deriving DecidableEq, Repr

/-- Embeds `Pipeline` from `src/lib.rs`: the compiled render pipeline
(`raw`, by id), the shared uniforms bind group, the per-card texture
bind group layout (by id), and the shared back texture. -/
structure Pipeline where
  raw : Nat
  uniforms_binding : BindGroup
  textures_layout : Nat
  back_texture : Texture
deriving DecidableEq, Repr

/-- Embeds `size_of::<Instance>()`: ten `f32` fields laid out `repr(C)` with no
padding — 40 bytes. -/
def instanceSizeBytes : Nat := 10 * 4

/-- One `queue.write_buffer(buffer, offset, data)` call; `data` is the
sequence of 32-bit float words written. -/
structure BufferWrite where
  buffer : Buffer
  offset : Nat
  data : List ℝ

/-- Embeds `Card` from `src/lib.rs`: the GPU-resident per-card state.
(The source field `instance` is a reserved word in Lean and is embedded
as `instanceBuffer`.) -/
structure Card where
  width : Nat
  height : Nat
  instanceBuffer : Buffer
  base : Texture
  foil : Option Texture
  etching : Option Texture
  binding : BindGroup
deriving DecidableEq, Repr

/-- Embeds `Viewport` from `src/lib.rs`. -/
structure Viewport where
  x : Nat
  y : Nat
  width : Nat
  height : Nat
deriving DecidableEq, Repr

/-- Embeds `Parameters` from `src/lib.rs`. -/
structure Parameters where
  viewport : Viewport
  rotation : Quaternion

/-- Embeds `Pipeline::upload` from `src/lib.rs` (lines 179–244): allocates the
instance buffer (sized for exactly one `Instance`), uploads the base and
optional foil/etching textures, creates their views, builds the texture
bind group — reusing the base view in slot 1 / slot 2 when foil / etching
is absent — and assembles the `Card` with `width` from the structure and
`height` from `base.size`. -/
def Pipeline.upload (p : Pipeline) (g : Gpu) (definition : Structure) :
    Card × Gpu :=
  let (instanceBuffer, g) := g.create_buffer instanceSizeBytes
  let (base, g) := definition.base.upload g
  let (foil, g) := match definition.foil with
    | some f => let (t, g) := f.upload g; (some t, g)
    | none => (none, g)
  let (etching, g) := match definition.etching with
    | some e => let (t, g) := e.upload g; (some t, g)
    | none => (none, g)
  let base_view := base.create_view
  let foil_view := foil.map Texture.create_view
  let etching_view := etching.map Texture.create_view
  let binding : BindGroup :=
    ⟨p.textures_layout,
      [⟨0, .textureView base_view⟩,
        ⟨1, .textureView (foil_view.getD base_view)⟩,
        ⟨2, .textureView (etching_view.getD base_view)⟩]⟩
  (⟨definition.width, definition.base.size, instanceBuffer, base, foil,
      etching, binding⟩,
    g)

/-- Embeds `Card::prepare` from `src/lib.rs` (lines 267–285): serializes one
`Instance` record — viewport (four `u32 as f32`), size (the card's width
and height as `f32`), rotation (`[a.x, a.y, a.z, w]`) — and writes it at
offset 0 of the card's instance buffer. The card's own fields are not
modified; the result pairs the (unchanged) card with the queue writes the
call issued. -/
noncomputable def Card.prepare (c : Card) (parameters : Parameters) :
    Card × List BufferWrite :=
  (c,
    [⟨c.instanceBuffer, 0,
      [(parameters.viewport.x : ℝ), (parameters.viewport.y : ℝ),
        (parameters.viewport.width : ℝ), (parameters.viewport.height : ℝ),
        (c.width : ℝ), (c.height : ℝ),
        parameters.rotation.a.x, parameters.rotation.a.y,
        parameters.rotation.a.z, parameters.rotation.w]⟩])

/-- A command recorded on a `wgpu::RenderPass`. Draw ranges are recorded as
half-open bounds (`draw 0 6 0 1` is `draw(0..6, 0..1)`). -/
inductive RenderCommand where
  | set_pipeline (id : Nat)
  | set_bind_group (index : Nat) (group : BindGroup)
  | set_vertex_buffer (slot : Nat) (buffer : Buffer)
  | draw (vertexStart vertexEnd instanceStart instanceEnd : Nat)
deriving DecidableEq, Repr

/-- Whether a render command is a draw call. -/
def RenderCommand.isDraw : RenderCommand → Bool
  | .draw _ _ _ _ => true
  | _ => false

/-- Embeds `Pipeline::render` from `src/lib.rs` (lines 246–252): binds the
pipeline, the shared uniforms bind group (index 0), the card's texture
bind group (index 1) and the card's instance buffer (slot 0), then issues
`draw(0..6, 0..1)`. The render pass is the list of commands recorded so
far. -/
def Pipeline.render (p : Pipeline) (pass : List RenderCommand) (card : Card) :
    List RenderCommand :=
  pass ++
    [.set_pipeline p.raw,
      .set_bind_group 0 p.uniforms_binding,
      .set_bind_group 1 card.binding,
      .set_vertex_buffer 0 card.instanceBuffer,
      .draw 0 6 0 1]

end GpuModel

section HotReload

/-- Embeds `Watcher::latest` from `examples/showcase/src/main.rs` (lines 629–631):
`self.pipelines.lock().unwrap().try_iter().last()`. The channel's pending
(unconsumed) pipelines are modelled as the list of sent values in send
order, oldest first; `try_iter` drains every pending value without
blocking and `.last()` keeps only the newest, so the call returns the most
recently compiled pipeline (or `none`) and leaves the channel empty. -/
def Watcher.latest (pending : List Pipeline) :
    Option Pipeline × List Pipeline :=
  (pending.getLast?, [])

/-- The hot-reload poll at the top of `Holofoil::prepare` in
`examples/showcase/src/main.rs` (lines 450–461):

```
if let Some(pipeline) = renderer.watcher.latest() {
    renderer.pipeline = pipeline;
    cache.card = None;
}
```

Given the active pipeline, the cached card and the watcher's pending
pipelines, it returns the new active pipeline, the new cache contents and
the channel's remaining pending values. -/
def pollReload (active : Pipeline) (cache : Option Card)
    (pending : List Pipeline) : Pipeline × Option Card × List Pipeline :=
  match Watcher.latest pending with
  | (some pipeline, rest) => (pipeline, none, rest)
  | (none, rest) => (active, cache, rest)

/-- The card selection right after the poll in `Holofoil::prepare`
(lines 458–461): `cache.card.take().unwrap_or_else(|| pipeline.upload(…))`
— reuse the cached card if present, otherwise upload a fresh one against
the (possibly new) active pipeline. -/
def selectCard (pipeline : Pipeline) (cache : Option Card) (g : Gpu)
    (structure' : Structure) : Card :=
  cache.getD (pipeline.upload g structure').1

end HotReload

section ConfigModel

/-- Modelled from the spec: `Configuration` is absent from the library
sources under `src/` (only its caller, the showcase example, is present).
Per §3 it is `{n_samples: u32 (1..=8), max_iterations: u32 (32..=256),
light: {position: Vector, power: f32}}`. -/
structure Configuration where
  n_samples : Nat
  max_iterations : Nat
  light_position : Vector
  light_power : ℝ

/-- The pipeline's shared uniform-buffer slot for the global configuration:
the last value written through to the GPU, plus a count of the underlying
buffer writes issued so far. -/
structure ConfigSlot where
  lastWritten : Option Configuration
  writes : Nat

/-- The slot of a freshly built pipeline: nothing written yet. -/
def ConfigSlot.init : ConfigSlot := ⟨none, 0⟩

/-- Value equality of configurations (`PartialEq` in Rust) — classically
decidable since the light fields are real-valued. -/
noncomputable instance : DecidableEq Configuration := Classical.decEq _

/-- Modelled from the spec: `Pipeline::configure` is absent from the
library sources under `src/`. Per §4.2 it "writes global configuration to
the shared uniform buffer, suppressing identical repeated writes (equality
check against last-written value)": when the new value equals the last
written value the GPU write is skipped, otherwise one buffer write is
issued and the value is recorded as last written. -/
noncomputable def Pipeline.configure (s : ConfigSlot) (c : Configuration) :
    ConfigSlot :=
  if s.lastWritten = some c then s
  else ⟨some c, s.writes + 1⟩

end ConfigModel

section Claims

/-- C5: quaternion multiplication is the Hamilton product — the vector
part is `a₁·w₂ + a₂·w₁ + a₁ × a₂` and the scalar part is `w₁·w₂ − a₁·a₂`,
with `cross` and `dot` expanded component-wise to their `Vector`
implementations. -/
theorem C5_hamilton_product (q1 q2 : Quaternion) :
    q1 * q2 =
      ⟨q1.a * q2.w + q2.a * q1.w + q1.a.cross q2.a,
        q1.w * q2.w - q1.a.dot q2.a⟩ ∧
    (q1 * q2).a.x =
      q1.a.x * q2.w + q2.a.x * q1.w + (q1.a.y * q2.a.z - q1.a.z * q2.a.y) ∧
    (q1 * q2).a.y =
      q1.a.y * q2.w + q2.a.y * q1.w + (q1.a.z * q2.a.x - q1.a.x * q2.a.z) ∧
    (q1 * q2).a.z =
      q1.a.z * q2.w + q2.a.z * q1.w + (q1.a.x * q2.a.y - q1.a.y * q2.a.x) ∧
    (q1 * q2).w =
      q1.w * q2.w -
        (q1.a.x * q2.a.x + q1.a.y * q2.a.y + q1.a.z * q2.a.z) :=
  ⟨rfl, rfl, rfl, rfl, rfl⟩

/-- C8: `Quaternion.from_radians(Vector::X, 0)` is the identity rotation
`{a = (0,0,0), w = 1}`, and composing it with any quaternion on either
side of `*` yields that quaternion unchanged. -/
theorem C8_identity_rotation :
    Quaternion.from_radians Vector.X 0 = ⟨⟨0, 0, 0⟩, 1⟩ ∧
    ∀ q : Quaternion,
      Quaternion.from_radians Vector.X 0 * q = q ∧
      q * Quaternion.from_radians Vector.X 0 = q := by
  have hid : Quaternion.from_radians Vector.X 0 = ⟨⟨0, 0, 0⟩, 1⟩ := by
    unfold Quaternion.from_radians
    norm_num [Vector.X, Vector.mul_def]
  refine ⟨hid, fun q => ?_⟩
  obtain ⟨⟨x, y, z⟩, w⟩ := q
  rw [hid]
  constructor
  · simp [Quaternion.mul_eq, Vector.cross, Vector.dot, Vector.add_def,
      Vector.mul_def]
  · simp [Quaternion.mul_eq, Vector.cross, Vector.dot, Vector.add_def,
      Vector.mul_def]

/-- C10: `Card.prepare` leaves every field of the card unchanged and its
only effect is a single queue write, at offset 0 into the card's instance
buffer, of exactly one `Instance` record — the viewport as four `f32`,
then the card's width and height as two `f32`, then the rotation as
`[a.x, a.y, a.z, w]` — whose 40-byte size equals `size_of::<Instance>()`,
which is exactly the size `Pipeline.upload` allocates for the instance
buffer, so the write exactly fills it. -/
theorem C10_prepare_single_write (c : Card) (parameters : Parameters)
    (p : Pipeline) (g : Gpu) (s : Structure) :
    (c.prepare parameters).1 = c ∧
    (c.prepare parameters).2 =
      [⟨c.instanceBuffer, 0,
        [(parameters.viewport.x : ℝ), (parameters.viewport.y : ℝ),
          (parameters.viewport.width : ℝ), (parameters.viewport.height : ℝ),
          (c.width : ℝ), (c.height : ℝ),
          parameters.rotation.a.x, parameters.rotation.a.y,
          parameters.rotation.a.z, parameters.rotation.w]⟩] ∧
    (c.prepare parameters).2.map (fun w => 4 * w.data.length) =
      [instanceSizeBytes] ∧
    (c.prepare parameters).2.map BufferWrite.offset = [0] ∧
    ((p.upload g s).1).instanceBuffer.size = instanceSizeBytes :=
  ⟨rfl, rfl, rfl, rfl, rfl⟩

/-- The 733-wide, 640×640-base, no-foil, no-etching card structure of the
end-to-end scenario. -/
def showcaseStructure : Structure := ⟨⟨0, 640⟩, none, none, 733⟩

/-- The `prepare` parameters of the end-to-end scenario:
`x = 0, y = 0, rotation = 0` (the identity quaternion). -/
def showcaseParameters : Parameters := ⟨⟨0, 0, 0, 0⟩, ⟨⟨0, 0, 0⟩, 1⟩⟩

/-- C7: for a structure with `width = 733`, a 640×640 base layer and no
foil or etching, `Pipeline.upload` succeeds (it is total) and returns a
`Card` with recorded `width = 733` and `height = 640`; a subsequent
`Card.prepare` followed by `Pipeline.render` records exactly one draw
call, covering vertices `0..6` and instances `0..1`. -/
theorem C7_end_to_end (p : Pipeline) (g : Gpu) :
    ((p.upload g showcaseStructure).1).width = 733 ∧
    ((p.upload g showcaseStructure).1).height = 640 ∧
    (p.render []
          (((p.upload g showcaseStructure).1).prepare showcaseParameters).1).filter
        RenderCommand.isDraw = [.draw 0 6 0 1] := by
  refine ⟨rfl, rfl, ?_⟩
  simp [Pipeline.render, Card.prepare, List.filter, RenderCommand.isDraw]

/-- C6: when a structure's foil and etching are both `None`,
`Pipeline.upload` builds the card's texture bind group with the base
texture's view bound in all three slots (bindings 0, 1 and 2); when foil
or etching is `Some`, its own uploaded texture's view occupies slot 1 or
slot 2 respectively. -/
theorem C6_binding_slots (p : Pipeline) (g : Gpu) (s : Structure) :
    (s.foil = none → s.etching = none →
      ((p.upload g s).1).binding.entries =
        [⟨0, .textureView (((p.upload g s).1).base.create_view)⟩,
          ⟨1, .textureView (((p.upload g s).1).base.create_view)⟩,
          ⟨2, .textureView (((p.upload g s).1).base.create_view)⟩]) ∧
    (∀ f, s.foil = some f →
      ∃ t, ((p.upload g s).1).foil = some t ∧
        ((p.upload g s).1).binding.entries.get? 1 =
          some ⟨1, .textureView t.create_view⟩) ∧
    (∀ e, s.etching = some e →
      ∃ t, ((p.upload g s).1).etching = some t ∧
        ((p.upload g s).1).binding.entries.get? 2 =
          some ⟨2, .textureView t.create_view⟩) := by
  obtain ⟨base, foil, etching, width⟩ := s
  refine ⟨fun hf he => ?_, fun f hf => ?_, fun e he => ?_⟩
  · cases hf; cases he; rfl
  · cases hf
    cases etching <;>
      exact ⟨_, rfl, rfl⟩
  · cases he
    cases foil <;>
      exact ⟨_, rfl, rfl⟩

/-- Witness for C6: uploading the concrete 733-wide, 640×640 structure
with no foil and no etching binds the base texture's view in all three
slots; with a foil mask present, slot 1 holds the foil texture's own
view. -/
theorem C6_binding_slots_witness :
    (((⟨0, ⟨0, []⟩, 7, ⟨0, 0, 0, .rgba8UnormSrgb⟩⟩ : Pipeline).upload ⟨0⟩
          ⟨⟨0, 640⟩, none, none, 733⟩).1).binding.entries =
      [⟨0, .textureView ⟨1⟩⟩, ⟨1, .textureView ⟨1⟩⟩,
        ⟨2, .textureView ⟨1⟩⟩] ∧
    (∃ t,
      (((⟨0, ⟨0, []⟩, 7, ⟨0, 0, 0, .rgba8UnormSrgb⟩⟩ : Pipeline).upload ⟨0⟩
            ⟨⟨0, 640⟩, some ⟨0, 640⟩, none, 733⟩).1).foil = some t ∧
      (((⟨0, ⟨0, []⟩, 7, ⟨0, 0, 0, .rgba8UnormSrgb⟩⟩ : Pipeline).upload ⟨0⟩
            ⟨⟨0, 640⟩, some ⟨0, 640⟩, none, 733⟩).1).binding.entries.get? 1 =
        some ⟨1, .textureView t.create_view⟩) :=
  ⟨(C6_binding_slots ⟨0, ⟨0, []⟩, 7, ⟨0, 0, 0, .rgba8UnormSrgb⟩⟩ ⟨0⟩
        ⟨⟨0, 640⟩, none, none, 733⟩).1 rfl rfl,
    (C6_binding_slots ⟨0, ⟨0, []⟩, 7, ⟨0, 0, 0, .rgba8UnormSrgb⟩⟩ ⟨0⟩
        ⟨⟨0, 640⟩, some ⟨0, 640⟩, none, 733⟩).2.1 ⟨0, 640⟩ rfl⟩

/-- C1: the per-frame hot-reload poll is latest-wins — when one or more
background-compiled pipelines are pending, the most recently sent one
becomes the active pipeline, every earlier unconsumed build is discarded
(the channel is left empty), the cached card is invalidated
(`cache.card = None`, so the following card selection re-uploads against
the new pipeline); a poll that finds nothing pending leaves the active
pipeline and the cache unchanged. -/
theorem C1_latest_wins (active : Pipeline) (cache : Option Card)
    (pending : List Pipeline) :
    (pending = [] →
      pollReload active cache pending = (active, cache, [])) ∧
    (∀ p, pending.getLast? = some p →
      pollReload active cache pending = (p, none, []) ∧
      ∀ (g : Gpu) (s : Structure),
        selectCard p none g s = (p.upload g s).1) := by
  constructor
  · rintro rfl
    rfl
  · intro p hp
    refine ⟨?_, fun g s => rfl⟩
    simp [pollReload, Watcher.latest, hp]

/-- Witness for C1: with no pending pipeline the poll changes nothing,
and with two pending pipelines the newest one wins, the cache is cleared
and the channel is drained. -/
theorem C1_latest_wins_witness :
    pollReload ⟨0, ⟨0, []⟩, 0, ⟨0, 0, 0, .rgba8UnormSrgb⟩⟩ none [] =
      (⟨0, ⟨0, []⟩, 0, ⟨0, 0, 0, .rgba8UnormSrgb⟩⟩, none, []) ∧
    pollReload ⟨0, ⟨0, []⟩, 0, ⟨0, 0, 0, .rgba8UnormSrgb⟩⟩ none
        [⟨1, ⟨0, []⟩, 1, ⟨0, 0, 0, .rgba8UnormSrgb⟩⟩,
          ⟨2, ⟨0, []⟩, 2, ⟨0, 0, 0, .rgba8UnormSrgb⟩⟩] =
      (⟨2, ⟨0, []⟩, 2, ⟨0, 0, 0, .rgba8UnormSrgb⟩⟩, none, []) :=
  ⟨(C1_latest_wins ⟨0, ⟨0, []⟩, 0, ⟨0, 0, 0, .rgba8UnormSrgb⟩⟩ none []).1 rfl,
    ((C1_latest_wins ⟨0, ⟨0, []⟩, 0, ⟨0, 0, 0, .rgba8UnormSrgb⟩⟩ none
          [⟨1, ⟨0, []⟩, 1, ⟨0, 0, 0, .rgba8UnormSrgb⟩⟩,
            ⟨2, ⟨0, []⟩, 2, ⟨0, 0, 0, .rgba8UnormSrgb⟩⟩]).2
        ⟨2, ⟨0, []⟩, 2, ⟨0, 0, 0, .rgba8UnormSrgb⟩⟩ rfl).1⟩

/-- C3: configuration write suppression — starting from a fresh pipeline's
slot, calling `configure` twice in a row with equal values issues exactly
one underlying uniform-buffer write, and calling it with two differing
values issues two writes. -/
theorem C3_configure_suppression (c c1 c2 : Configuration) (h : c1 ≠ c2) :
    (Pipeline.configure (Pipeline.configure ConfigSlot.init c) c).writes =
      1 ∧
    (Pipeline.configure (Pipeline.configure ConfigSlot.init c1) c2).writes =
      2 := by
  have first : ∀ c' : Configuration,
      Pipeline.configure ConfigSlot.init c' = ⟨some c', 1⟩ := by
    intro c'
    unfold Pipeline.configure ConfigSlot.init
    rw [if_neg (by simp)]
  constructor
  · rw [first c]
    unfold Pipeline.configure
    rw [if_pos rfl]
  · rw [first c1]
    unfold Pipeline.configure
    rw [if_neg (by simpa using h)]

/-- Witness for C3: two concrete configurations differing in the sample
count — two equal calls issue one write, two differing calls issue two. -/
theorem C3_configure_suppression_witness :
    (Pipeline.configure
        (Pipeline.configure ConfigSlot.init ⟨1, 32, ⟨0, 0, 0⟩, 1⟩)
        ⟨1, 32, ⟨0, 0, 0⟩, 1⟩).writes = 1 ∧
    (Pipeline.configure
        (Pipeline.configure ConfigSlot.init ⟨1, 32, ⟨0, 0, 0⟩, 1⟩)
        ⟨2, 32, ⟨0, 0, 0⟩, 1⟩).writes = 2 :=
  C3_configure_suppression ⟨1, 32, ⟨0, 0, 0⟩, 1⟩ ⟨1, 32, ⟨0, 0, 0⟩, 1⟩
    ⟨2, 32, ⟨0, 0, 0⟩, 1⟩
    (by simp [Configuration.mk.injEq])

/-- Counterexample for C2: the fold is not idempotent — at angle `1`,
`fold(1) = 2π − 1` but `fold(fold(1)) = 1`, and `2π − 1 ≠ 1`. -/
theorem C2_fold_not_idempotent :
    foldAngle (foldAngle 1) ≠ foldAngle 1 := by
  have hpi := Real.pi_gt_three
  have h1 : foldAngle (1 : ℝ) = 2 * Real.pi - 1 := by
    unfold foldAngle
    rw [if_neg (by norm_num)]
    exact remEuclid_eq_self (by linarith) (by linarith) (by linarith)
  have h2 : foldAngle (2 * Real.pi - 1) = 1 := by
    unfold foldAngle
    rw [if_neg (by push_neg; linarith)]
    have e : 2 * Real.pi - (2 * Real.pi - 1) = 1 := by ring
    rw [e]
    exact remEuclid_eq_self (by linarith) (by norm_num) (by linarith)
  rw [h1, h2]
  intro hcontra
  linarith

/-- C2 (amended): the fold is an involution on already-folded angles — for
every angle in `[0, 2π)` (the range the fold sends every `to_euler`
component into), applying the fold twice yields the angle back
unchanged. -/
theorem C2_fold_double_on_folded (z : ℝ) (h0 : 0 ≤ z)
    (h1 : z < 2 * Real.pi) :
    foldAngle (foldAngle z) = z := by
  have hpi : (0 : ℝ) < 2 * Real.pi := by positivity
  rcases eq_or_lt_of_le h0 with hz | hz
  · have hfold0 : foldAngle 0 = 0 := by
      unfold foldAngle
      rw [if_neg (by norm_num), sub_zero]
      exact remEuclid_self hpi
    rw [← hz, hfold0, hfold0]
  · have e1 : foldAngle z = 2 * Real.pi - z := by
      unfold foldAngle
      rw [if_neg (not_lt.mpr h0)]
      exact remEuclid_eq_self hpi (by linarith) (by linarith)
    have e2 : foldAngle (2 * Real.pi - z) = z := by
      unfold foldAngle
      rw [if_neg (by push_neg; linarith)]
      have e : 2 * Real.pi - (2 * Real.pi - z) = z := by ring
      rw [e]
      exact remEuclid_eq_self hpi h0 h1
    rw [e1, e2]

/-- Witness for C2 (amended): the angle `1` lies in `[0, 2π)` and folding
it twice yields `1` back. -/
theorem C2_fold_double_on_folded_witness :
    (0 : ℝ) ≤ 1 ∧ (1 : ℝ) < 2 * Real.pi ∧ foldAngle (foldAngle 1) = 1 :=
  ⟨by norm_num, by linarith [Real.pi_gt_three],
    C2_fold_double_on_folded 1 (by norm_num)
      (by linarith [Real.pi_gt_three])⟩

/-- C4: `Quaternion.to_euler` computes pitch by
`asin(clamp(2(w·ax − ay·az), −1, 1))`, yaw by
`atan2(2(w·ay + az·ax), 1 − 2(ax² + ay²))`, roll by
`atan2(2(w·az + ax·ay), 1 − 2(ax² + az²))`, returns each angle through the
fold "negate if negative, else `(2π − angle) mod 2π`", and every returned
component lies in `[0, 2π)`. -/
theorem C4_to_euler (q : Quaternion) :
    q.to_euler =
      ⟨foldAngle
          (Real.arcsin (clamp (2 * (q.w * q.a.x - q.a.y * q.a.z)) (-1) 1)),
        foldAngle
          (atan2 (2 * (q.w * q.a.y + q.a.z * q.a.x))
            (1 - 2 * (q.a.x * q.a.x + q.a.y * q.a.y))),
        foldAngle
          (atan2 (2 * (q.w * q.a.z + q.a.x * q.a.y))
            (1 - 2 * (q.a.x * q.a.x + q.a.z * q.a.z)))⟩ ∧
    (0 ≤ q.to_euler.x ∧ q.to_euler.x < 2 * Real.pi) ∧
    (0 ≤ q.to_euler.y ∧ q.to_euler.y < 2 * Real.pi) ∧
    (0 ≤ q.to_euler.z ∧ q.to_euler.z < 2 * Real.pi) := by
  have hpi : (0 : ℝ) < Real.pi := Real.pi_pos
  refine ⟨rfl, ?_, ?_, ?_⟩
  · have hb :=
      Real.neg_pi_div_two_le_arcsin
        (clamp (2 * (q.w * q.a.x - q.a.y * q.a.z)) (-1) 1)
    exact foldAngle_mem (by linarith)
  · have hb : -Real.pi <
        atan2 (2 * (q.w * q.a.y + q.a.z * q.a.x))
          (1 - 2 * (q.a.x * q.a.x + q.a.y * q.a.y)) :=
      Complex.neg_pi_lt_arg
        ⟨1 - 2 * (q.a.x * q.a.x + q.a.y * q.a.y),
          2 * (q.w * q.a.y + q.a.z * q.a.x)⟩
    exact foldAngle_mem (by linarith)
  · have hb : -Real.pi <
        atan2 (2 * (q.w * q.a.z + q.a.x * q.a.y))
          (1 - 2 * (q.a.x * q.a.x + q.a.z * q.a.z)) :=
      Complex.neg_pi_lt_arg
        ⟨1 - 2 * (q.a.x * q.a.x + q.a.z * q.a.z),
          2 * (q.w * q.a.z + q.a.x * q.a.y)⟩
    exact foldAngle_mem (by linarith)

/-- A quaternion whose squared norm is already `1` is unchanged by
`normalize`. -/
theorem Quaternion.normalize_of_norm_one {q : Quaternion}
    (h : q.a.dot q.a + q.w * q.w = 1) : q.normalize = q := by
  unfold Quaternion.normalize
  rw [h, Real.sqrt_one]
  obtain ⟨⟨x, y, z⟩, w⟩ := q
  simp [Vector.div_def]

/-- C9: for every unit vector `v` and every angle `θ`, the quaternion
`Quaternion.from_radians(v, θ).normalize()` satisfies `|a|² + w² = 1`
(exactly, in the real-valued model — hence within any floating-point
tolerance). -/
theorem C9_normalized_unit (v : Vector) (θ : ℝ) (h : v.dot v = 1) :
    ((Quaternion.from_radians v θ).normalize).a.dot
        ((Quaternion.from_radians v θ).normalize).a +
      ((Quaternion.from_radians v θ).normalize).w *
        ((Quaternion.from_radians v θ).normalize).w = 1 := by
  have key : (Quaternion.from_radians v θ).a.dot
      (Quaternion.from_radians v θ).a +
      (Quaternion.from_radians v θ).w * (Quaternion.from_radians v θ).w =
      1 := by
    have hs := Real.sin_sq_add_cos_sq (-θ / 2)
    unfold Quaternion.from_radians
    simp only [Vector.dot, Vector.mul_def] at h ⊢
    nlinarith [hs]
  rw [Quaternion.normalize_of_norm_one key]
  exact key

/-- Witness for C9: `Vector::X` is a unit vector and the normalized
rotation about it by `0` radians has squared norm `1`. -/
theorem C9_normalized_unit_witness :
    Vector.X.dot Vector.X = 1 ∧
    ((Quaternion.from_radians Vector.X 0).normalize).a.dot
        ((Quaternion.from_radians Vector.X 0).normalize).a +
      ((Quaternion.from_radians Vector.X 0).normalize).w *
        ((Quaternion.from_radians Vector.X 0).normalize).w = 1 :=
  ⟨by norm_num [Vector.dot, Vector.X],
    C9_normalized_unit Vector.X 0 (by norm_num [Vector.dot, Vector.X])⟩

end Claims

end Holofoil
